import Mathlib

/-
Verification of the computational-geometry core of the `shapes` repository:
the outline-mesh generator (`src/outline.rs`) and the sharp-edge detector
(`src/references.rs`).

Modelling conventions:
* `f32`/`f64` values are modelled as real numbers.  The geometric primitives
  (`length`, `normalize`, `angle_between`) therefore live in `ℝ` and are
  noncomputable; all structural code (mesh plumbing, attribute maps,
  control flow) is kept definitionally transparent.
* glam's `angle_between` clamps the cosine into `[-1, 1]` before `acos`;
  `Real.arccos` has exactly this clamping behaviour, so no extra clamp is
  needed.  glam's `normalize` divides by the length (division by zero
  yields `0` in `ℝ`, standing in for the IEEE garbage value, which none of
  the verified paths ever consume); `normalize_or_zero` explicitly guards
  the zero-length case exactly as glam does.
* Rust `Result` and panics (assert!, unwrap, out-of-bounds indexing) are
  modelled with `Except`: a panic is an `Except.error` carrying a
  `PanicKind`, kept distinct from the recoverable `GenerateOutlineError`
  values so that "returns an error" and "aborts" are distinguishable.
* Rust `HashMap`s keyed on exact float bit patterns (`FloatOrd`) are
  modelled as insertion-ordered association lists over exact real triples;
  claims about the detector output are stated up to membership, matching
  the spec's "order is unspecified".
-/

/-- A raw `[f32; 3]` triple (also the `[FloatOrd; 3]` hash key: `FloatOrd`
wrapping is the identity in the real-number model). -/
abbrev K3 : Type := ℝ × ℝ × ℝ

/-- glam's `Vec3`/`DVec3` (both modelled over `ℝ`). -/
structure Vec3 where
  x : ℝ
  y : ℝ
  z : ℝ

namespace Vec3

def zero : Vec3 := ⟨0, 0, 0⟩

instance : Add Vec3 := ⟨fun a b => ⟨a.x + b.x, a.y + b.y, a.z + b.z⟩⟩

instance : Sub Vec3 := ⟨fun a b => ⟨a.x - b.x, a.y - b.y, a.z - b.z⟩⟩

instance : SMul ℝ Vec3 := ⟨fun c v => ⟨c * v.x, c * v.y, c * v.z⟩⟩

theorem add_def (a b : Vec3) : a + b = ⟨a.x + b.x, a.y + b.y, a.z + b.z⟩ := rfl

theorem sub_def (a b : Vec3) : a - b = ⟨a.x - b.x, a.y - b.y, a.z - b.z⟩ := rfl

theorem smul_def (c : ℝ) (v : Vec3) : c • v = ⟨c * v.x, c * v.y, c * v.z⟩ := rfl

def dot (a b : Vec3) : ℝ := a.x * b.x + a.y * b.y + a.z * b.z

def cross (a b : Vec3) : Vec3 :=
  ⟨a.y * b.z - a.z * b.y, a.z * b.x - a.x * b.z, a.x * b.y - a.y * b.x⟩

def lengthSq (v : Vec3) : ℝ := v.dot v

noncomputable def length (v : Vec3) : ℝ := Real.sqrt v.lengthSq

/-- glam `normalize`: `self * (1 / length)`. -/
noncomputable def normalize (v : Vec3) : Vec3 := (1 / v.length) • v

/-- glam `normalize_or_zero`: the zero vector when the length is zero (the
reciprocal length is not finite), otherwise `self * (1 / length)`. -/
noncomputable def normalize_or_zero (v : Vec3) : Vec3 :=
  if v.lengthSq = 0 then zero else (1 / v.length) • v

/-- glam `angle_between`: `acos` of the clamped cosine of the angle;
`Real.arccos` clamps outside `[-1, 1]` just as glam does. -/
noncomputable def angle_between (a b : Vec3) : ℝ :=
  Real.arccos (a.dot b / (a.length * b.length))

end Vec3

/-- Converts a stored `[f32; 3]` triple to a `Vec3` (Rust `Vec3::from`). -/
def toVec (p : K3) : Vec3 := ⟨p.1, p.2.1, p.2.2⟩

/-- bevy `PrimitiveTopology` (the variants relevant to the checks). -/
inductive PrimitiveTopology
  | PointList
  | LineList
  | LineStrip
  | TriangleList
  | TriangleStrip
deriving DecidableEq

/-- bevy `VertexFormat` (a representative subset). -/
inductive VertexFormat
  | Float32x2
  | Float32x3
deriving DecidableEq

/-- bevy `VertexAttributeValues`: the `Float32x3` variant consumed by the
engine plus a representative differently-formatted variant. -/
inductive VertexAttributeValues
  | Float32x3 (vals : List K3)
  | Float32x2 (vals : List (ℝ × ℝ))

/-- `VertexFormat::from(&VertexAttributeValues)`. -/
def VertexAttributeValues.format : VertexAttributeValues → VertexFormat
  | .Float32x3 _ => .Float32x3
  | .Float32x2 _ => .Float32x2

/-- bevy `VertexAttributeValues::as_float3`. -/
def VertexAttributeValues.as_float3 : VertexAttributeValues → Option (List K3)
  | .Float32x3 vals => some vals
  | _ => none

/-- bevy `Indices` (index values as naturals; `as usize` widening is
lossless). -/
inductive Indices
  | U16 (l : List ℕ)
  | U32 (l : List ℕ)

/-- The index sequence an `Indices` value iterates. -/
def Indices.toList : Indices → List ℕ
  | .U16 l => l
  | .U32 l => l

/-- The slice of bevy `Mesh` the engine touches: topology, named vertex
attributes, optional index buffer. -/
structure Mesh where
  primitive_topology : PrimitiveTopology
  attributes : List (String × VertexAttributeValues)
  indices : Option Indices

/-- Name of `Mesh::ATTRIBUTE_POSITION`. -/
def POSITION : String := "Vertex_Position"

/-- Name of `ATTRIBUTE_OUTLINE_NORMAL` from `outline.rs`. -/
def OUTLINE_NORMAL : String := "Outline_Normal"

/-- Lookup in the attribute map (`Mesh::attribute`). -/
def lookupAttr : List (String × VertexAttributeValues) → String → Option VertexAttributeValues
  | [], _ => none
  | (n, v) :: rest, name => if n = name then some v else lookupAttr rest name

/-- Insert-or-replace in the attribute map (`Mesh::insert_attribute`). -/
def insertAttrList : List (String × VertexAttributeValues) → String → VertexAttributeValues →
    List (String × VertexAttributeValues)
  | [], name, v => [(name, v)]
  | (n, v') :: rest, name, v =>
      if n = name then (name, v) :: rest else (n, v') :: insertAttrList rest name v

/-- `Mesh::attribute` (lookup by attribute name). -/
def Mesh.attr (m : Mesh) (name : String) : Option VertexAttributeValues :=
  lookupAttr m.attributes name

/-- `Mesh::insert_attribute`. -/
def Mesh.insert_attribute (m : Mesh) (name : String) (v : VertexAttributeValues) : Mesh :=
  { m with attributes := insertAttrList m.attributes name v }

/-- The ways the translated code can abort: `assert!` failure, `.unwrap()`
on `None`, or out-of-bounds slice indexing. -/
inductive PanicKind
  | AssertionFailed
  | UnwrapOnNone
  | IndexOutOfBounds
deriving DecidableEq

/-- `GenerateOutlineError` from `outline.rs`. -/
inductive GenerateOutlineError
  | UnsupportedPrimitiveTopology (t : PrimitiveTopology)
  | MissingVertexAttribute (name : String)
  | InvalidVertexAttributeFormat (name : String) (expected actual : VertexFormat)
deriving DecidableEq

/-- Outcome of an `outline.rs` call: a recoverable `Err` value or a panic,
kept distinct. -/
inductive Failure
  | err (e : GenerateOutlineError)
  | panicked (p : PanicKind)
deriving DecidableEq

/-- Sequencing that propagates a panic (Rust control flow past a possibly
panicking step). -/
def pThen {α β : Type} : Except PanicKind α → (α → Except PanicKind β) → Except PanicKind β
  | .ok a, f => f a
  | .error e, _ => .error e

noncomputable section

/-- The index list `smooth_normals` iterates: the index buffer if present,
else `0..positions.len()`. -/
def smoothIndexList (mesh : Mesh) (positions : List K3) : List ℕ :=
  match mesh.indices with
  | some i => i.toList
  | none => List.range positions.length

/-- Accumulator map of `smooth_normals`: position key to accumulated
(unnormalized) normal, insertion-ordered. -/
abbrev NMap : Type := List (K3 × Vec3)

/-- `map.entry(key).or_default()` followed by `+=`: add into the entry for
the key, appending a fresh entry when absent. -/
def mapAdd : NMap → K3 → Vec3 → NMap
  | [], k, w => [(k, w)]
  | (k', v) :: rest, k, w =>
      if k' = k then (k', v + w) :: rest else (k', v) :: mapAdd rest k w

/-- Map lookup (`map.get(&key)`). -/
def mapGet? : NMap → K3 → Option Vec3
  | [], _ => none
  | (k', v) :: rest, k => if k' = k then some v else mapGet? rest k

/-- One corner contribution of `smooth_normals`: for rotation
`(j0, j1, j2)` scale the edge vectors by `1e8`, weight by the subtended
angle, and accumulate the weighted `normalize_or_zero` of the cross
product under the corner position key. -/
def triApply (positions : List K3) (j0 j1 j2 : ℕ) (m : NMap) : NMap :=
  let p0 := positions.getD j0 (0, 0, 0)
  let p1 := positions.getD j1 (0, 0, 0)
  let p2 := positions.getD j2 (0, 0, 0)
  let v1 : Vec3 := (100000000 : ℝ) • (toVec p1 - toVec p0)
  let v2 : Vec3 := (100000000 : ℝ) • (toVec p2 - toVec p0)
  let angle := v1.angle_between v2
  mapAdd m p0 (angle • (v1.cross v2).normalize_or_zero)

/-- The triangle loop of `smooth_normals`: consume index triples (leftover
indices are dropped), indexing panics when an index is out of bounds;
each triangle contributes its three corner rotations in order. -/
def accumNormals (positions : List K3) : List ℕ → NMap → Except PanicKind NMap
  | i0 :: i1 :: i2 :: rest, m =>
      if i0 < positions.length ∧ i1 < positions.length ∧ i2 < positions.length then
        accumNormals positions rest
          (triApply positions i2 i0 i1 (triApply positions i1 i2 i0 (triApply positions i0 i1 i2 m)))
      else .error .IndexOutOfBounds
  | _, m => .ok m

/-- In-bounds condition for the complete index triples actually consumed
by the triangle loops (leftover indices shorter than a triple are dropped
unread). -/
def triplesInBounds (n : ℕ) : List ℕ → Prop
  | i0 :: i1 :: i2 :: rest => (i0 < n ∧ i1 < n ∧ i2 < n) ∧ triplesInBounds n rest
  | _ => True

/-- The final per-vertex normal `smooth_normals` emits for a stored
position: the accumulated vector for its key (zero when absent),
re-normalized, written back as an `[f32; 3]` triple. -/
def finalNormal (m : NMap) (p : K3) : K3 :=
  ((((mapGet? m p).getD Vec3.zero).normalize_or_zero).x,
   (((mapGet? m p).getD Vec3.zero).normalize_or_zero).y,
   (((mapGet? m p).getD Vec3.zero).normalize_or_zero).z)

/-- `smooth_normals` from `outline.rs`: topology check, position attribute
extraction, angle-weighted accumulation keyed on exact positions, then
insertion of the `Outline_Normal` attribute. -/
def smooth_normals (mesh : Mesh) : Except Failure Mesh :=
  if mesh.primitive_topology = .TriangleList then
    match mesh.attr POSITION with
    | none => .error (.err (.MissingVertexAttribute POSITION))
    | some (.Float32x3 positions) =>
        match accumNormals positions (smoothIndexList mesh positions) [] with
        | .error p => .error (.panicked p)
        | .ok m =>
            .ok (mesh.insert_attribute OUTLINE_NORMAL
              (.Float32x3 (positions.map (finalNormal m))))
    | some v => .error (.err (.InvalidVertexAttributeFormat POSITION .Float32x3 v.format))
  else .error (.err (.UnsupportedPrimitiveTopology mesh.primitive_topology))

/-- One displaced vertex of `move_vertices_along_normals`:
`p + n * distance`, componentwise on the raw triples. -/
def displace (distance : ℝ) (pn : K3 × K3) : K3 :=
  (pn.1.1 + pn.2.1 * distance,
   pn.1.2.1 + pn.2.2.1 * distance,
   pn.1.2.2 + pn.2.2.2 * distance)

/-- `move_vertices_along_normals` from `outline.rs`: requires position and
outline-normal attributes in `Float32x3` format, then displaces each
position along its normal by `distance`; `zip` truncates to the shorter
attribute. -/
def move_vertices_along_normals (mesh : Mesh) (distance : ℝ) : Except Failure Mesh :=
  match mesh.attr POSITION with
  | none => .error (.err (.MissingVertexAttribute POSITION))
  | some (.Float32x3 positions) =>
      match mesh.attr OUTLINE_NORMAL with
      | none => .error (.err (.MissingVertexAttribute OUTLINE_NORMAL))
      | some (.Float32x3 normals) =>
          .ok (mesh.insert_attribute POSITION (.Float32x3
            ((positions.zip normals).map (displace distance))))
      | some v => .error (.err (.InvalidVertexAttributeFormat OUTLINE_NORMAL .Float32x3 v.format))
  | some v => .error (.err (.InvalidVertexAttributeFormat POSITION .Float32x3 v.format))

/-- `generate_outline_mesh` from `outline.rs`: clone the source mesh (the
borrowed source is immutable; the pure embedding passes it by value), run
`smooth_normals` then `move_vertices_along_normals` on the clone, and
return the derived mesh. -/
def generate_outline_mesh (mesh : Mesh) (thickness : ℝ) : Except Failure Mesh :=
  match smooth_normals mesh with
  | .ok outline_mesh => move_vertices_along_normals outline_mesh thickness
  | .error f => .error f

/-- Lexicographic order on `[FloatOrd; 3]` (Rust array `Ord`). -/
def lexLe (a b : K3) : Prop :=
  a.1 < b.1 ∨ (a.1 = b.1 ∧ (a.2.1 < b.2.1 ∨ (a.2.1 = b.2.1 ∧ a.2.2 ≤ b.2.2)))

instance lexLe.dec (a b : K3) : Decidable (lexLe a b) := by
  unfold lexLe
  infer_instance

/-- The canonical `Edge` key: `(a.min(b), a.max(b))` under the
lexicographic order. -/
def canonEdge (a b : K3) : K3 × K3 :=
  (if lexLe a b then a else b, if lexLe a b then b else a)

/-- Edge-adjacency map of `edge_angles`: canonical edge to its first
opposite point and optional second opposite point. -/
abbrev EMap : Type := List ((K3 × K3) × (K3 × Option K3))

/-- One edge insertion of `edge_angles`: unseen edges are stored with a
single opposite point; a second distinct opposite point fills the second
slot; a repeated identical opposite point is ignored; a third occurrence
hits `assert!(other_points.1.is_none())` and panics. -/
def edgeInsert : EMap → (K3 × K3) → K3 → Except PanicKind EMap
  | [], e, c => .ok [(e, (c, none))]
  | (e', (c0, c1)) :: rest, e, c =>
      if e' = e then
        if c1.isSome then .error .AssertionFailed
        else if c0 ≠ c then .ok ((e', (c0, some c)) :: rest)
        else .ok ((e', (c0, none)) :: rest)
      else pThen (edgeInsert rest e c) fun rest' => .ok ((e', (c0, c1)) :: rest')

/-- The three edge insertions of one triangle `(p0, p1, p2)`, in the
source's `i = 0, 1, 2` order. -/
def insertTriEdges (p0 p1 p2 : K3) (m : EMap) : Except PanicKind EMap :=
  pThen (edgeInsert m (canonEdge p0 p1) p2) fun m1 =>
  pThen (edgeInsert m1 (canonEdge p1 p2) p0) fun m2 =>
  edgeInsert m2 (canonEdge p2 p0) p1

/-- The triangle loop of `edge_angles`: fetch the three corner positions
(panicking on out-of-bounds indices) and insert the triangle's edges;
leftover indices shorter than a triple are dropped. -/
def accumEdges (vertices : List K3) : List ℕ → EMap → Except PanicKind EMap
  | a :: b :: c :: rest, m =>
      if a < vertices.length ∧ b < vertices.length ∧ c < vertices.length then
        pThen
          (insertTriEdges (vertices.getD a (0, 0, 0)) (vertices.getD b (0, 0, 0))
            (vertices.getD c (0, 0, 0)) m)
          (accumEdges vertices rest)
      else .error .IndexOutOfBounds
  | _, m => .ok m

/-- `tangent_of_edge` from `references.rs` (the nested-cross-product
variant that is actually wired into the dihedral computation). -/
def tangent_of_edge (a b other_point : Vec3) : Vec3 :=
  (((b - a).cross (other_point - a)).normalize).cross (b - a) |>.normalize

/-- Turns one adjacency-map entry into an `edge_angles` output entry: the
edge endpoints plus the dihedral angle between the two tangents, `none`
for a boundary edge. -/
def entryAngle (e : (K3 × K3) × (K3 × Option K3)) : K3 × K3 × Option ℝ :=
  (e.1.1, e.1.2, e.2.2.map fun d =>
    (tangent_of_edge (toVec e.1.1) (toVec e.1.2) (toVec e.2.1)).angle_between
      (tangent_of_edge (toVec e.1.1) (toVec e.1.2) (toVec d)))

/-- `edge_angles` from `references.rs`: asserts the topology, unwraps the
position attribute, its `Float32x3` view, and the index buffer (each
`unwrap` a panic on `None`), builds the edge adjacency, then computes per
edge the dihedral angle (`none` for boundary edges). -/
def edge_angles (mesh : Mesh) : Except PanicKind (List (K3 × K3 × Option ℝ)) :=
  if mesh.primitive_topology = .TriangleList then
    match mesh.attr POSITION with
    | none => .error .UnwrapOnNone
    | some vav =>
        match vav.as_float3 with
        | none => .error .UnwrapOnNone
        | some vertices =>
            match mesh.indices with
            | none => .error .UnwrapOnNone
            | some idx =>
                pThen (accumEdges vertices idx.toList []) fun m => .ok (m.map entryAngle)
  else .error .AssertionFailed

/-- The filter loop of `sharp_edge_lines`: a missing angle is replaced by
`0.0`, then the edge is kept iff `low < angle && angle < high`. -/
def sharp_filter (radian_range : ℝ × ℝ) : List (K3 × K3 × Option ℝ) → List (K3 × K3)
  | [] => []
  | (a, b, angOpt) :: rest =>
      if radian_range.1 < angOpt.getD 0 ∧ angOpt.getD 0 < radian_range.2 then
        (a, b) :: sharp_filter radian_range rest
      else sharp_filter radian_range rest

/-- `sharp_edge_lines` from `references.rs`: the angles from
`edge_angles` filtered by the open interval (panics propagate). -/
def sharp_edge_lines (mesh : Mesh) (radian_range : ℝ × ℝ) :
    Except PanicKind (List (K3 × K3)) :=
  pThen (edge_angles mesh) fun ea => .ok (sharp_filter radian_range ea)

end

/-- A single isolated triangle: all three edges are boundary edges. -/
def tri1 : Mesh :=
  ⟨.TriangleList, [(POSITION, .Float32x3 [(0, 0, 0), (1, 0, 0), (0, 1, 0)])],
    some (.U32 [0, 1, 2])⟩

/-- Two coplanar triangles sharing the edge from `(0,0,0)` to `(1,0,0)`:
that edge has two distinct opposite points and dihedral angle `π`; the
other four edges are boundary edges. -/
def flatMesh : Mesh :=
  ⟨.TriangleList,
    [(POSITION, .Float32x3 [(0, 0, 0), (1, 0, 0), (0, 1, 0), (0, -1, 0)])],
    some (.U32 [0, 1, 2, 0, 3, 1])⟩

/-- Three triangles sharing the edge from `(0,0,0)` to `(1,0,0)` with
three distinct opposite points: a non-manifold edge. -/
def nmMesh : Mesh :=
  ⟨.TriangleList,
    [(POSITION, .Float32x3 [(0, 0, 0), (1, 0, 0), (0, 1, 0), (0, 0, 1), (1, 1, 0)])],
    some (.U32 [0, 1, 2, 0, 1, 3, 0, 1, 4])⟩

/-- A line-list mesh with no attributes: wrong topology and missing
position at the same time. -/
def badTopoMesh : Mesh := ⟨.LineList, [], none⟩

/-- A triangle-list mesh with no position attribute. -/
def noPositionMesh : Mesh := ⟨.TriangleList, [], some (.U32 [])⟩

/-- A triangle-list mesh whose position attribute has the wrong format. -/
def badFormatMesh : Mesh :=
  ⟨.TriangleList, [(POSITION, .Float32x2 [])], some (.U32 [])⟩

/-- A triangle-list mesh with a position attribute but no index buffer. -/
def noIndexMesh : Mesh :=
  ⟨.TriangleList, [(POSITION, .Float32x3 [(0, 0, 0)])], none⟩

/-- Two vertices at identical coordinates and an empty index buffer: the
smallest mesh accepted by `smooth_normals`. -/
def miniMesh : Mesh :=
  ⟨.TriangleList, [(POSITION, .Float32x3 [(0, 0, 0), (0, 0, 0)])], some (.U32 [])⟩

/-- The result of `smooth_normals` on `miniMesh` (and, since thickness
displaces by the zero normals, of `generate_outline_mesh` as well). -/
def miniMeshSmoothed : Mesh :=
  ⟨.TriangleList,
    [(POSITION, .Float32x3 [(0, 0, 0), (0, 0, 0)]),
     (OUTLINE_NORMAL, .Float32x3 [(0, 0, 0), (0, 0, 0)])],
    some (.U32 [])⟩

/-- One position but an empty outline-normal array: mismatched attribute
lengths for `move_vertices_along_normals`. -/
def mismatchMesh : Mesh :=
  ⟨.TriangleList,
    [(POSITION, .Float32x3 [(1, 2, 3)]), (OUTLINE_NORMAL, .Float32x3 [])], none⟩

/-- `mismatchMesh` after `move_vertices_along_normals`: the position array
has been truncated to the empty zip. -/
def mismatchMeshMoved : Mesh :=
  ⟨.TriangleList,
    [(POSITION, .Float32x3 []), (OUTLINE_NORMAL, .Float32x3 [])], none⟩

/-- Position and outline-normal attributes of equal length one. -/
def moveMesh : Mesh :=
  ⟨.TriangleList,
    [(POSITION, .Float32x3 [(1, 2, 3)]), (OUTLINE_NORMAL, .Float32x3 [(4, 5, 6)])], none⟩

/-- Two positions but a single outline normal: mismatched lengths with a
nonempty zip. -/
def mismatchMesh2 : Mesh :=
  ⟨.TriangleList,
    [(POSITION, .Float32x3 [(1, 2, 3), (7, 8, 9)]),
     (OUTLINE_NORMAL, .Float32x3 [(0, 0, 0)])], none⟩

theorem lookupAttr_insert_self (l : List (String × VertexAttributeValues)) (n : String)
    (v : VertexAttributeValues) : lookupAttr (insertAttrList l n v) n = some v := by
  induction l with
  | nil => simp [insertAttrList, lookupAttr]
  | cons hd tl ih =>
    obtain ⟨n', v'⟩ := hd
    by_cases hn : n' = n
    · simp [insertAttrList, hn, lookupAttr]
    · simp [insertAttrList, hn, lookupAttr, ih]

theorem lookupAttr_insert_ne (l : List (String × VertexAttributeValues)) (n n' : String)
    (v : VertexAttributeValues) (hne : n' ≠ n) :
    lookupAttr (insertAttrList l n v) n' = lookupAttr l n' := by
  have hne' : n ≠ n' := hne.symm
  induction l with
  | nil => simp [insertAttrList, lookupAttr, hne']
  | cons hd tl ih =>
    obtain ⟨a, b⟩ := hd
    by_cases ha : a = n
    · subst ha
      simp [insertAttrList, lookupAttr, hne']
    · simp [insertAttrList, ha, lookupAttr, ih]

theorem attr_insert_self (m : Mesh) (n : String) (v : VertexAttributeValues) :
    (m.insert_attribute n v).attr n = some v :=
  lookupAttr_insert_self m.attributes n v

theorem attr_insert_ne (m : Mesh) (n n' : String) (v : VertexAttributeValues)
    (hne : n' ≠ n) : (m.insert_attribute n v).attr n' = m.attr n' :=
  lookupAttr_insert_ne m.attributes n n' v hne

theorem insert_topology (m : Mesh) (n : String) (v : VertexAttributeValues) :
    (m.insert_attribute n v).primitive_topology = m.primitive_topology := rfl

theorem insert_indices (m : Mesh) (n : String) (v : VertexAttributeValues) :
    (m.insert_attribute n v).indices = m.indices := rfl

theorem smooth_normals_ok_inv {m m' : Mesh} (h : smooth_normals m = .ok m') :
    m.primitive_topology = .TriangleList ∧
    ∃ ps nm, m.attr POSITION = some (.Float32x3 ps) ∧
      accumNormals ps (smoothIndexList m ps) [] = .ok nm ∧
      m' = m.insert_attribute OUTLINE_NORMAL (.Float32x3 (ps.map (finalNormal nm))) := by
  by_cases ht : m.primitive_topology = .TriangleList
  · refine ⟨ht, ?_⟩
    simp only [smooth_normals, ht, if_true] at h
    cases hA : m.attr POSITION with
    | none => simp only [hA] at h; exact absurd h (by simp)
    | some v =>
      cases v with
      | Float32x2 w => simp only [hA] at h; exact absurd h (by simp)
      | Float32x3 ps =>
        simp only [hA] at h
        cases hN : accumNormals ps (smoothIndexList m ps) [] with
        | error p => simp only [hN] at h; exact absurd h (by simp)
        | ok nm =>
          simp only [hN, Except.ok.injEq] at h
          exact ⟨ps, nm, rfl, hN, h.symm⟩
  · simp only [smooth_normals, ht, if_false] at h
    exact absurd h (by simp)

theorem move_ok_inv {m m' : Mesh} {d : ℝ} (h : move_vertices_along_normals m d = .ok m') :
    ∃ ps ns, m.attr POSITION = some (.Float32x3 ps) ∧
      m.attr OUTLINE_NORMAL = some (.Float32x3 ns) ∧
      m' = m.insert_attribute POSITION (.Float32x3 ((ps.zip ns).map (displace d))) := by
  cases hP : m.attr POSITION with
  | none => simp only [move_vertices_along_normals, hP] at h; exact absurd h (by simp)
  | some v =>
    cases v with
    | Float32x2 w => simp only [move_vertices_along_normals, hP] at h; exact absurd h (by simp)
    | Float32x3 ps =>
      cases hN : m.attr OUTLINE_NORMAL with
      | none =>
        simp only [move_vertices_along_normals, hP, hN] at h
        exact absurd h (by simp)
      | some w =>
        cases w with
        | Float32x2 u =>
          simp only [move_vertices_along_normals, hP, hN] at h
          exact absurd h (by simp)
        | Float32x3 ns =>
          simp only [move_vertices_along_normals, hP, hN, Except.ok.injEq] at h
          exact ⟨ps, ns, rfl, rfl, h.symm⟩

theorem accumNormals_ok_iff (ps : List K3) : ∀ (idx : List ℕ) (m : NMap),
    (∃ r, accumNormals ps idx m = .ok r) ↔ triplesInBounds ps.length idx
  | [], m => by simp [accumNormals, triplesInBounds]
  | [i0], m => by simp [accumNormals, triplesInBounds]
  | [i0, i1], m => by simp [accumNormals, triplesInBounds]
  | i0 :: i1 :: i2 :: rest, m => by
    by_cases h : i0 < ps.length ∧ i1 < ps.length ∧ i2 < ps.length
    · simp only [accumNormals, triplesInBounds, h, if_true, true_and]
      exact accumNormals_ok_iff ps rest _
    · simp [accumNormals, triplesInBounds, h]

theorem mem_sharp_filter (rr : ℝ × ℝ) : ∀ (l : List (K3 × K3 × Option ℝ)) (ab : K3 × K3),
    ab ∈ sharp_filter rr l ↔
      ∃ o : Option ℝ, (ab.1, ab.2, o) ∈ l ∧ rr.1 < o.getD 0 ∧ o.getD 0 < rr.2
  | [], ab => by simp [sharp_filter]
  | (a, b, o) :: rest, ab => by
    obtain ⟨a1, a2⟩ := ab
    by_cases hc : rr.1 < o.getD 0 ∧ o.getD 0 < rr.2
    · simp only [sharp_filter, hc, and_self, if_true, List.mem_cons,
        mem_sharp_filter rr rest (a1, a2), Prod.mk.injEq]
      constructor
      · rintro (⟨rfl, rfl⟩ | ⟨o', ho', hc1, hc2⟩)
        · exact ⟨o, Or.inl ⟨rfl, rfl, rfl⟩, hc.1, hc.2⟩
        · exact ⟨o', Or.inr ho', hc1, hc2⟩
      · rintro ⟨o', (⟨rfl, rfl, rfl⟩ | hmem), hc1, hc2⟩
        · exact Or.inl ⟨rfl, rfl⟩
        · exact Or.inr ⟨o', hmem, hc1, hc2⟩
    · simp only [sharp_filter, hc, if_false, List.mem_cons,
        mem_sharp_filter rr rest (a1, a2), Prod.mk.injEq]
      constructor
      · rintro ⟨o', ho', hc1, hc2⟩
        exact ⟨o', Or.inr ho', hc1, hc2⟩
      · rintro ⟨o', (⟨rfl, rfl, rfl⟩ | hmem), hc1, hc2⟩
        · exact absurd ⟨hc1, hc2⟩ hc
        · exact ⟨o', hmem, hc1, hc2⟩

theorem sharp_filter_empty_range (k : ℝ) : ∀ l : List (K3 × K3 × Option ℝ),
    sharp_filter (k, k) l = []
  | [] => by simp [sharp_filter]
  | (a, b, o) :: rest => by
    have hc : ¬(k < o.getD 0 ∧ o.getD 0 < k) := fun hx => absurd (hx.1.trans hx.2) (lt_irrefl k)
    simp [sharp_filter, hc, sharp_filter_empty_range k rest]

theorem lengthSq_nonneg (v : Vec3) : 0 ≤ v.lengthSq := by
  simp only [Vec3.lengthSq, Vec3.dot]
  nlinarith [mul_self_nonneg v.x, mul_self_nonneg v.y, mul_self_nonneg v.z]

theorem normalize_or_zero_of_degenerate (v : Vec3) (h : v.lengthSq = 0) :
    v.normalize_or_zero = Vec3.zero := by
  simp [Vec3.normalize_or_zero, h]

theorem lengthSq_smul (c : ℝ) (v : Vec3) : (c • v).lengthSq = c * c * v.lengthSq := by
  simp only [Vec3.smul_def, Vec3.lengthSq, Vec3.dot]
  ring

theorem normalize_or_zero_lengthSq_le_one (v : Vec3) : v.normalize_or_zero.lengthSq ≤ 1 := by
  by_cases h : v.lengthSq = 0
  · rw [normalize_or_zero_of_degenerate v h]
    norm_num [Vec3.zero, Vec3.lengthSq, Vec3.dot]
  · have hpos : 0 < v.lengthSq := lt_of_le_of_ne (lengthSq_nonneg v) (Ne.symm h)
    have hlen : 0 < v.length := Real.sqrt_pos.mpr hpos
    have hl : v.length * v.length = v.lengthSq := Real.mul_self_sqrt (lengthSq_nonneg v)
    rw [Vec3.normalize_or_zero, if_neg h, lengthSq_smul]
    have : 1 / v.length * (1 / v.length) * v.lengthSq = 1 := by
      rw [div_mul_div_comm, one_mul, div_mul_eq_mul_div, one_mul, hl, div_self h]
    rw [this]

theorem abs_comps_of_lengthSq_le_one (v : Vec3) (h : v.lengthSq ≤ 1) :
    |v.x| ≤ 1 ∧ |v.y| ≤ 1 ∧ |v.z| ≤ 1 := by
  simp only [Vec3.lengthSq, Vec3.dot] at h
  refine ⟨?_, ?_, ?_⟩ <;> rw [abs_le_one_iff_mul_self_le_one] <;>
    nlinarith [mul_self_nonneg v.x, mul_self_nonneg v.y, mul_self_nonneg v.z]

theorem zip_displace_zero : ∀ ps ns : List K3, ps.length ≤ ns.length →
    (ps.zip ns).map (displace 0) = ps
  | [], _, _ => by simp
  | p :: ps', [], h => by simp at h
  | p :: ps', n :: ns', h => by
    have h' : ps'.length ≤ ns'.length := by
      simpa using Nat.le_of_succ_le_succ (by simpa using h)
    obtain ⟨px, py, pz⟩ := p
    simp [List.zip_cons_cons, zip_displace_zero ps' ns' h', displace]

theorem eval_edge_angles_tri1 : edge_angles tri1 =
    .ok [(((0 : ℝ), (0 : ℝ), (0 : ℝ)), (1, 0, 0), none),
         (((0 : ℝ), (1 : ℝ), (0 : ℝ)), (1, 0, 0), none),
         (((0 : ℝ), (0 : ℝ), (0 : ℝ)), (0, 1, 0), none)] := by
  norm_num [edge_angles, tri1, Mesh.attr, lookupAttr, POSITION,
    VertexAttributeValues.as_float3, Indices.toList, accumEdges, insertTriEdges,
    edgeInsert, canonEdge, lexLe, pThen, entryAngle, Prod.mk.injEq,
    -Prod.mk_zero_zero]

theorem eval_sharp_tri1 : sharp_edge_lines tri1 (-1, 1) =
    .ok [(((0 : ℝ), (0 : ℝ), (0 : ℝ)), ((1 : ℝ), (0 : ℝ), (0 : ℝ))),
         (((0 : ℝ), (1 : ℝ), (0 : ℝ)), ((1 : ℝ), (0 : ℝ), (0 : ℝ))),
         (((0 : ℝ), (0 : ℝ), (0 : ℝ)), ((0 : ℝ), (1 : ℝ), (0 : ℝ)))] := by
  norm_num [sharp_edge_lines, eval_edge_angles_tri1, pThen, sharp_filter,
    -Prod.mk_zero_zero]

theorem eval_edge_angles_flatMesh : edge_angles flatMesh =
    .ok [(((0 : ℝ), (0 : ℝ), (0 : ℝ)), (1, 0, 0), some Real.pi),
         (((0 : ℝ), (1 : ℝ), (0 : ℝ)), (1, 0, 0), none),
         (((0 : ℝ), (0 : ℝ), (0 : ℝ)), (0, 1, 0), none),
         (((0 : ℝ), (-1 : ℝ), (0 : ℝ)), (0, 0, 0), none),
         (((0 : ℝ), (-1 : ℝ), (0 : ℝ)), (1, 0, 0), none)] := by
  norm_num [edge_angles, flatMesh, Mesh.attr, lookupAttr, POSITION,
    VertexAttributeValues.as_float3, Indices.toList, accumEdges, insertTriEdges,
    edgeInsert, canonEdge, lexLe, pThen, entryAngle, Prod.mk.injEq,
    tangent_of_edge, toVec, Vec3.angle_between, Vec3.normalize, Vec3.cross,
    Vec3.sub_def, Vec3.smul_def, Vec3.dot, Vec3.length, Vec3.lengthSq,
    Real.sqrt_one, Real.arccos_neg_one, Vec3.mk.injEq,
    -Prod.mk_zero_zero]

theorem eval_sharp_flat_zero_pi : sharp_edge_lines flatMesh (0, Real.pi) = .ok [] := by
  have h1 : ¬((0 : ℝ) < Real.pi ∧ Real.pi < Real.pi) := by simp [lt_irrefl]
  have h2 : ¬((0 : ℝ) < (0 : ℝ) ∧ (0 : ℝ) < Real.pi) := by norm_num
  simp [sharp_edge_lines, eval_edge_angles_flatMesh, pThen, sharp_filter, h1, h2]

theorem eval_sharp_flat_zero_four : sharp_edge_lines flatMesh (0, 4) =
    .ok [(((0 : ℝ), (0 : ℝ), (0 : ℝ)), ((1 : ℝ), (0 : ℝ), (0 : ℝ)))] := by
  have h1 : (0 : ℝ) < Real.pi ∧ Real.pi < 4 := ⟨Real.pi_pos, Real.pi_lt_four⟩
  have h2 : ¬((0 : ℝ) < (0 : ℝ) ∧ (0 : ℝ) < (4 : ℝ)) := by norm_num
  simp [sharp_edge_lines, eval_edge_angles_flatMesh, pThen, sharp_filter, h1, h2,
    -Prod.mk_zero_zero]

theorem eval_smooth_miniMesh : smooth_normals miniMesh = .ok miniMeshSmoothed := by
  norm_num [smooth_normals, miniMesh, miniMeshSmoothed, Mesh.attr, lookupAttr,
    POSITION, OUTLINE_NORMAL, smoothIndexList, Indices.toList, accumNormals,
    finalNormal, mapGet?, Vec3.normalize_or_zero, Vec3.lengthSq, Vec3.dot,
    Vec3.zero, Mesh.insert_attribute, insertAttrList, Prod.mk.injEq,
    -Prod.mk_zero_zero]
  decide

theorem eval_gen_miniMesh : generate_outline_mesh miniMesh 1 = .ok miniMeshSmoothed := by
  have h1 : ¬(("Vertex_Position" : String) = "Outline_Normal") := by decide
  norm_num [generate_outline_mesh, eval_smooth_miniMesh, move_vertices_along_normals,
    miniMeshSmoothed, Mesh.attr, lookupAttr, POSITION, OUTLINE_NORMAL, displace,
    Mesh.insert_attribute, insertAttrList, Prod.mk.injEq, h1,
    -Prod.mk_zero_zero]

/-- C1: the spec requires a third distinct occurrence of a canonical edge
(a non-manifold edge) to surface as a reportable `NonManifoldEdge` error
value returned to the caller.  The code instead hits
`assert!(other_points.1.is_none())`: on a concrete mesh whose edge from
`(0,0,0)` to `(1,0,0)` occurs in three triangles with three distinct
opposite points, the adjacency build aborts with an assertion failure —
and the error enumeration `GenerateOutlineError` has no `NonManifoldEdge`
variant at all. -/
theorem C1_nonmanifold_edge_asserts : edge_angles nmMesh = .error .AssertionFailed := by
  norm_num [edge_angles, nmMesh, Mesh.attr, lookupAttr, POSITION,
    VertexAttributeValues.as_float3, Indices.toList, accumEdges, insertTriEdges,
    edgeInsert, canonEdge, lexLe, pThen, entryAngle, Prod.mk.injEq,
    -Prod.mk_zero_zero]

/-- C2: the spec requires the sharp-edge pipeline to return a recoverable
error and never panic on malformed input.  The code panics on every
malformed-input class the claim lists: a non-triangle-list topology trips
the `assert!`, a missing index buffer and a missing or wrongly-formatted
position attribute each trip an `unwrap` on `None`. -/
theorem C2_malformed_mesh_panics :
    sharp_edge_lines badTopoMesh (0, 1) = .error .AssertionFailed
  ∧ sharp_edge_lines noIndexMesh (0, 1) = .error .UnwrapOnNone
  ∧ sharp_edge_lines noPositionMesh (0, 1) = .error .UnwrapOnNone
  ∧ sharp_edge_lines badFormatMesh (0, 1) = .error .UnwrapOnNone :=
  ⟨rfl, rfl, rfl, rfl⟩

/-- C3 (counterexample): the claim says a boundary edge is never in the
detector output regardless of the interval.  On a single isolated
triangle — all of whose edges are boundary edges — with the interval
`(-1, 1)`, the substituted angle `0.0` satisfies the strict bounds and
the boundary edge from `(0,0,0)` to `(1,0,0)` is emitted. -/
theorem C3_cex_boundary_edge_included :
    (∃ L, sharp_edge_lines tri1 (-1, 1) = .ok L ∧
      (((0 : ℝ), (0 : ℝ), (0 : ℝ)), ((1 : ℝ), (0 : ℝ), (0 : ℝ))) ∈ L)
  ∧ (∃ ea, edge_angles tri1 = .ok ea ∧
      (((0 : ℝ), (0 : ℝ), (0 : ℝ)), ((1 : ℝ), (0 : ℝ), (0 : ℝ)), (none : Option ℝ)) ∈ ea) := by
  refine ⟨⟨_, eval_sharp_tri1, ?_⟩, ⟨_, eval_edge_angles_tri1, ?_⟩⟩ <;> simp

/-- C3 (amended): whenever the lower bound of the interval is
nonnegative, every edge the detector emits comes from an adjacency entry
with a defined (two-sided) dihedral angle strictly inside the interval —
in particular boundary edges, whose missing angle is substituted by
`0.0`, are excluded.  (When the lower bound is negative, a boundary edge
can be emitted, as the counterexample shows.) -/
theorem C3_boundary_excluded (m : Mesh) (lo hi : ℝ) (L : List (K3 × K3))
    (h0 : 0 ≤ lo) (h : sharp_edge_lines m (lo, hi) = .ok L) :
    ∀ ab ∈ L, ∃ ea ang, edge_angles m = .ok ea ∧
      (ab.1, ab.2, some ang) ∈ ea ∧ lo < ang ∧ ang < hi := by
  intro ab hab
  cases hE : edge_angles m with
  | error p =>
    simp only [sharp_edge_lines, hE, pThen] at h
    exact absurd h (by simp)
  | ok ea =>
    simp only [sharp_edge_lines, hE, pThen, Except.ok.injEq] at h
    subst h
    obtain ⟨o, ho, hc1, hc2⟩ := (mem_sharp_filter (lo, hi) ea ab).mp hab
    cases o with
    | none =>
      simp only [Option.getD_none] at hc1
      exact absurd hc1 (not_lt.mpr h0)
    | some ang =>
      exact ⟨ea, ang, rfl, ho, by simpa using hc1, by simpa using hc2⟩

/-- Witness for C3 (amended): on the flat two-triangle mesh with the
interval `(0, 4)` the detector emits exactly the shared edge, and the
theorem recovers its two-sided entry with an in-range angle. -/
theorem C3_boundary_excluded_witness :
    (0 : ℝ) ≤ 0 ∧
    ∀ ab ∈ [(((0 : ℝ), (0 : ℝ), (0 : ℝ)), ((1 : ℝ), (0 : ℝ), (0 : ℝ)))],
      ∃ ea ang, edge_angles flatMesh = .ok ea ∧
        (ab.1, ab.2, some ang) ∈ ea ∧ (0 : ℝ) < ang ∧ ang < 4 :=
  ⟨le_refl 0, C3_boundary_excluded flatMesh 0 4 _ (le_refl 0) eval_sharp_flat_zero_four⟩

/-- C4 (counterexample): the claim says the interval `(0, π)` yields
exactly the non-boundary edges regardless of their angle.  On the flat
two-triangle mesh the shared edge is non-boundary with dihedral angle
exactly `π`, which fails the strict upper bound: the output is empty. -/
theorem C4_cex_flat_shared_edge_excluded :
    sharp_edge_lines flatMesh (0, Real.pi) = .ok []
  ∧ ∃ ea, edge_angles flatMesh = .ok ea ∧
      (((0 : ℝ), (0 : ℝ), (0 : ℝ)), ((1 : ℝ), (0 : ℝ), (0 : ℝ)), some Real.pi) ∈ ea :=
  ⟨eval_sharp_flat_zero_pi, ⟨_, eval_edge_angles_flatMesh, by simp⟩⟩

/-- C4 (amended): with the interval `(0, π)` the detector emits exactly
the edges having a defined (two-sided) dihedral angle strictly between
`0` and `π` — boundary edges never qualify, but neither do two-sided
edges whose angle is exactly `0` or `π`; and for every empty open
interval `(k, k)` the output is exactly the empty list. -/
theorem C4_full_and_empty_interval (m : Mesh) (ea : List (K3 × K3 × Option ℝ))
    (h : edge_angles m = .ok ea) :
    (∃ L, sharp_edge_lines m (0, Real.pi) = .ok L ∧
      ∀ ab : K3 × K3, ab ∈ L ↔
        ∃ ang, (ab.1, ab.2, some ang) ∈ ea ∧ 0 < ang ∧ ang < Real.pi)
  ∧ ∀ k : ℝ, sharp_edge_lines m (k, k) = .ok [] := by
  constructor
  · refine ⟨sharp_filter (0, Real.pi) ea, by simp [sharp_edge_lines, h, pThen], ?_⟩
    intro ab
    rw [mem_sharp_filter]
    constructor
    · rintro ⟨o, ho, hc1, hc2⟩
      cases o with
      | none => simp at hc1
      | some ang => exact ⟨ang, ho, by simpa using hc1, by simpa using hc2⟩
    · rintro ⟨ang, ho, hc1, hc2⟩
      exact ⟨some ang, ho, by simpa using hc1, by simpa using hc2⟩
  · intro k
    simp [sharp_edge_lines, h, pThen, sharp_filter_empty_range]

/-- Witness for C4 (amended): instantiated on the flat two-triangle mesh,
whose adjacency list is computed concretely. -/
theorem C4_full_and_empty_interval_witness :
    edge_angles flatMesh =
      .ok [(((0 : ℝ), (0 : ℝ), (0 : ℝ)), (1, 0, 0), some Real.pi),
           (((0 : ℝ), (1 : ℝ), (0 : ℝ)), (1, 0, 0), none),
           (((0 : ℝ), (0 : ℝ), (0 : ℝ)), (0, 1, 0), none),
           (((0 : ℝ), (-1 : ℝ), (0 : ℝ)), (0, 0, 0), none),
           (((0 : ℝ), (-1 : ℝ), (0 : ℝ)), (1, 0, 0), none)]
  ∧ ((∃ L, sharp_edge_lines flatMesh (0, Real.pi) = .ok L ∧
      ∀ ab : K3 × K3, ab ∈ L ↔
        ∃ ang, (ab.1, ab.2, some ang) ∈
          [(((0 : ℝ), (0 : ℝ), (0 : ℝ)), (1, 0, 0), some Real.pi),
           (((0 : ℝ), (1 : ℝ), (0 : ℝ)), (1, 0, 0), none),
           (((0 : ℝ), (0 : ℝ), (0 : ℝ)), (0, 1, 0), none),
           (((0 : ℝ), (-1 : ℝ), (0 : ℝ)), (0, 0, 0), none),
           (((0 : ℝ), (-1 : ℝ), (0 : ℝ)), (1, 0, 0), none)] ∧ 0 < ang ∧ ang < Real.pi)
    ∧ ∀ k : ℝ, sharp_edge_lines flatMesh (k, k) = .ok []) :=
  ⟨eval_edge_angles_flatMesh,
    C4_full_and_empty_interval flatMesh _ eval_edge_angles_flatMesh⟩

/-- C5: for every mesh accepted by `smooth_normals`, two vertex indices
whose stored positions are exactly equal receive exactly the same output
normal: the accumulator is keyed by the corner's position, not its index,
and the output array is read back through that key. -/
theorem C5_equal_positions_equal_normals (m m' : Mesh) (ps : List K3) (i j : ℕ) (p : K3)
    (hok : smooth_normals m = .ok m')
    (hps : m.attr POSITION = some (.Float32x3 ps))
    (hi : ps[i]? = some p) (hj : ps[j]? = some p) :
    ∃ ns, m'.attr OUTLINE_NORMAL = some (.Float32x3 ns) ∧ ns[i]? = ns[j]? := by
  obtain ⟨ht, ps', nm, hps', hN, hm'⟩ := smooth_normals_ok_inv hok
  rw [hps] at hps'
  obtain rfl : ps = ps' := by simpa using hps'
  subst hm'
  refine ⟨ps.map (finalNormal nm), attr_insert_self .., ?_⟩
  rw [List.getElem?_map, List.getElem?_map, hi, hj]

/-- Witness for C5: the two coincident vertices of `miniMesh` obtain the
same outline normal. -/
theorem C5_equal_positions_equal_normals_witness :
    smooth_normals miniMesh = .ok miniMeshSmoothed
  ∧ miniMesh.attr POSITION =
      some (.Float32x3 [((0 : ℝ), (0 : ℝ), (0 : ℝ)), ((0 : ℝ), (0 : ℝ), (0 : ℝ))])
  ∧ ∃ ns, miniMeshSmoothed.attr OUTLINE_NORMAL = some (.Float32x3 ns) ∧ ns[0]? = ns[1]? :=
  ⟨eval_smooth_miniMesh, rfl,
    C5_equal_positions_equal_normals miniMesh miniMeshSmoothed _ 0 1 ((0 : ℝ), (0 : ℝ), (0 : ℝ))
      eval_smooth_miniMesh rfl rfl rfl⟩

/-- C7: `generate_outline_mesh` returns a fresh derived mesh: the borrowed
source is cloned (the pure embedding passes it by value, so the source
value is untouched by construction), and the derived mesh keeps the
source's topology and index buffer while carrying replaced positions and
the new outline-normal attribute. -/
theorem C7_outline_mesh_fresh_derived (m : Mesh) (t : ℝ) (m' : Mesh)
    (h : generate_outline_mesh m t = .ok m') :
    m'.primitive_topology = m.primitive_topology
  ∧ m'.indices = m.indices
  ∧ (∃ ps', m'.attr POSITION = some (.Float32x3 ps'))
  ∧ (∃ ns', m'.attr OUTLINE_NORMAL = some (.Float32x3 ns')) := by
  cases hs : smooth_normals m with
  | error f => simp only [generate_outline_mesh, hs] at h; exact absurd h (by simp)
  | ok m1 =>
    simp only [generate_outline_mesh, hs] at h
    obtain ⟨ht, ps, nm, hA, hN, hm1⟩ := smooth_normals_ok_inv hs
    obtain ⟨ps1, ns1, hP1, hN1, hm'⟩ := move_ok_inv h
    subst hm'
    subst hm1
    refine ⟨rfl, rfl, ⟨_, attr_insert_self ..⟩, ?_⟩
    rw [attr_insert_ne _ _ _ _ (by decide)]
    exact ⟨ns1, hN1⟩

/-- Witness for C7: instantiated on `miniMesh` with thickness `1`. -/
theorem C7_outline_mesh_fresh_derived_witness :
    generate_outline_mesh miniMesh 1 = .ok miniMeshSmoothed
  ∧ (miniMeshSmoothed.primitive_topology = miniMesh.primitive_topology
    ∧ miniMeshSmoothed.indices = miniMesh.indices
    ∧ (∃ ps', miniMeshSmoothed.attr POSITION = some (.Float32x3 ps'))
    ∧ (∃ ns', miniMeshSmoothed.attr OUTLINE_NORMAL = some (.Float32x3 ns'))) :=
  ⟨eval_gen_miniMesh, C7_outline_mesh_fresh_derived miniMesh 1 miniMeshSmoothed eval_gen_miniMesh⟩

/-- C8 (counterexample): the claim quantifies over every mesh whose
position and outline-normal attributes are both present in `Float32x3`
format, but when the normal array is shorter, thickness `0.0` is not the
identity: the zip truncates and the position array shrinks. -/
theorem C8_cex_truncation_breaks_identity :
    move_vertices_along_normals mismatchMesh 0 = .ok mismatchMeshMoved
  ∧ mismatchMesh.attr POSITION = some (.Float32x3 [((1 : ℝ), (2 : ℝ), (3 : ℝ))])
  ∧ mismatchMeshMoved.attr POSITION = some (.Float32x3 []) :=
  ⟨rfl, rfl, rfl⟩

/-- C8 (amended): with thickness `0.0` and an outline-normal array at
least as long as the position array, `move_vertices_along_normals`
rewrites the position attribute with exactly the original position
values. -/
theorem C8_zero_thickness_identity (m : Mesh) (ps ns : List K3)
    (h1 : m.attr POSITION = some (.Float32x3 ps))
    (h2 : m.attr OUTLINE_NORMAL = some (.Float32x3 ns))
    (h3 : ps.length ≤ ns.length) :
    move_vertices_along_normals m 0 = .ok (m.insert_attribute POSITION (.Float32x3 ps)) := by
  simp only [move_vertices_along_normals, h1, h2, zip_displace_zero ps ns h3]

/-- Witness for C8 (amended): equal-length one-vertex attributes. -/
theorem C8_zero_thickness_identity_witness :
    moveMesh.attr POSITION = some (.Float32x3 [((1 : ℝ), (2 : ℝ), (3 : ℝ))])
  ∧ moveMesh.attr OUTLINE_NORMAL = some (.Float32x3 [((4 : ℝ), (5 : ℝ), (6 : ℝ))])
  ∧ [((1 : ℝ), (2 : ℝ), (3 : ℝ))].length ≤ [((4 : ℝ), (5 : ℝ), (6 : ℝ))].length
  ∧ move_vertices_along_normals moveMesh 0 =
      .ok (moveMesh.insert_attribute POSITION (.Float32x3 [((1 : ℝ), (2 : ℝ), (3 : ℝ))])) :=
  ⟨rfl, rfl, le_refl _,
    C8_zero_thickness_identity moveMesh _ _ rfl rfl (le_refl _)⟩

/-- C9: on every mesh `smooth_normals` accepts, the emitted outline-normal
attribute is made of well-defined bounded values — every component has
absolute value at most `1` (each final normal has squared length `0` or
`1`) — and a corner whose cross product has zero squared length
contributes exactly the zero vector through `normalize_or_zero`, so no
invalid value enters the accumulation. -/
theorem C9_normals_bounded_no_invalid (m m' : Mesh) (h : smooth_normals m = .ok m') :
    (∃ ns, m'.attr OUTLINE_NORMAL = some (.Float32x3 ns) ∧
      ∀ c ∈ ns, |c.1| ≤ 1 ∧ |c.2.1| ≤ 1 ∧ |c.2.2| ≤ 1)
  ∧ ∀ v1 v2 : Vec3, (v1.cross v2).lengthSq = 0 →
      (v1.cross v2).normalize_or_zero = Vec3.zero := by
  constructor
  · obtain ⟨ht, ps, nm, hA, hN, hm'⟩ := smooth_normals_ok_inv h
    subst hm'
    refine ⟨ps.map (finalNormal nm), attr_insert_self .., ?_⟩
    intro c hc
    rw [List.mem_map] at hc
    obtain ⟨p, hp, rfl⟩ := hc
    have hb := normalize_or_zero_lengthSq_le_one ((mapGet? nm p).getD Vec3.zero)
    have habs := abs_comps_of_lengthSq_le_one _ hb
    simpa [finalNormal] using habs
  · intro v1 v2 hz
    exact normalize_or_zero_of_degenerate _ hz

/-- Witness for C9: instantiated on `miniMesh`. -/
theorem C9_normals_bounded_no_invalid_witness :
    smooth_normals miniMesh = .ok miniMeshSmoothed
  ∧ ((∃ ns, miniMeshSmoothed.attr OUTLINE_NORMAL = some (.Float32x3 ns) ∧
      ∀ c ∈ ns, |c.1| ≤ 1 ∧ |c.2.1| ≤ 1 ∧ |c.2.2| ≤ 1)
    ∧ ∀ v1 v2 : Vec3, (v1.cross v2).lengthSq = 0 →
        (v1.cross v2).normalize_or_zero = Vec3.zero) :=
  ⟨eval_smooth_miniMesh, C9_normals_bounded_no_invalid miniMesh miniMeshSmoothed eval_smooth_miniMesh⟩

/-- C10: when both attributes are present in `Float32x3` format but have
different lengths, `move_vertices_along_normals` still succeeds and
silently replaces the position attribute by an array of the shorter
length (the zip truncation), with no mismatch error reported. -/
theorem C10_length_mismatch_truncates (m : Mesh) (d : ℝ) (ps ns : List K3)
    (h1 : m.attr POSITION = some (.Float32x3 ps))
    (h2 : m.attr OUTLINE_NORMAL = some (.Float32x3 ns))
    (h3 : ps.length ≠ ns.length) :
    ∃ m', move_vertices_along_normals m d = .ok m' ∧
      ∃ ps', m'.attr POSITION = some (.Float32x3 ps') ∧
        ps'.length = min ps.length ns.length := by
  refine ⟨m.insert_attribute POSITION (.Float32x3 ((ps.zip ns).map (displace d))), ?_, ?_⟩
  · simp only [move_vertices_along_normals, h1, h2]
  · exact ⟨_, attr_insert_self .., by rw [List.length_map, List.length_zip]⟩

/-- Witness for C10: two positions against one normal are truncated to a
single position. -/
theorem C10_length_mismatch_truncates_witness :
    mismatchMesh2.attr POSITION =
      some (.Float32x3 [((1 : ℝ), (2 : ℝ), (3 : ℝ)), ((7 : ℝ), (8 : ℝ), (9 : ℝ))])
  ∧ mismatchMesh2.attr OUTLINE_NORMAL = some (.Float32x3 [((0 : ℝ), (0 : ℝ), (0 : ℝ))])
  ∧ [((1 : ℝ), (2 : ℝ), (3 : ℝ)), ((7 : ℝ), (8 : ℝ), (9 : ℝ))].length ≠
      [((0 : ℝ), (0 : ℝ), (0 : ℝ))].length
  ∧ ∃ m', move_vertices_along_normals mismatchMesh2 5 = .ok m' ∧
      ∃ ps', m'.attr POSITION = some (.Float32x3 ps') ∧
        ps'.length =
          min [((1 : ℝ), (2 : ℝ), (3 : ℝ)), ((7 : ℝ), (8 : ℝ), (9 : ℝ))].length
            [((0 : ℝ), (0 : ℝ), (0 : ℝ))].length :=
  ⟨rfl, rfl, by decide,
    C10_length_mismatch_truncates mismatchMesh2 5 _ _ rfl rfl (by decide)⟩

/-- C6 (counterexample): the claim's iff for the MissingAttribute case
fails because the topology check runs first: on a line-list mesh with no
attributes at all the position attribute is absent, yet `smooth_normals`
reports `UnsupportedPrimitiveTopology` and no missing-attribute error. -/
theorem C6_cex_error_precedence :
    smooth_normals badTopoMesh = .error (.err (.UnsupportedPrimitiveTopology .LineList))
  ∧ badTopoMesh.attr POSITION = none
  ∧ ∀ n, smooth_normals badTopoMesh ≠ .error (.err (.MissingVertexAttribute n)) := by
  refine ⟨rfl, rfl, fun n h => ?_⟩
  have h0 : smooth_normals badTopoMesh =
      .error (.err (.UnsupportedPrimitiveTopology .LineList)) := rfl
  rw [h0] at h
  simp at h

/-- C6 (amended): `smooth_normals` fails exactly under the stated
preconditions once their checking order is accounted for:
`UnsupportedPrimitiveTopology` iff the topology is not a triangle list;
`MissingVertexAttribute` iff the topology is a triangle list and the
position attribute is absent; `InvalidVertexAttributeFormat` iff the
topology is a triangle list and the position attribute is present in a
non-`Float32x3` format; and it succeeds iff all three preconditions hold
and additionally every complete index triple is within the bounds of the
position array (an out-of-bounds index panics instead of succeeding). -/
theorem C6_smooth_normals_error_conditions (m : Mesh) :
    ((∃ t, smooth_normals m = .error (.err (.UnsupportedPrimitiveTopology t))) ↔
      m.primitive_topology ≠ .TriangleList)
  ∧ ((∃ n, smooth_normals m = .error (.err (.MissingVertexAttribute n))) ↔
      m.primitive_topology = .TriangleList ∧ m.attr POSITION = none)
  ∧ ((∃ n e a, smooth_normals m = .error (.err (.InvalidVertexAttributeFormat n e a))) ↔
      m.primitive_topology = .TriangleList ∧
        ∃ v, m.attr POSITION = some v ∧ ∀ l, v ≠ .Float32x3 l)
  ∧ ((∃ m', smooth_normals m = .ok m') ↔
      m.primitive_topology = .TriangleList ∧
        ∃ ps, m.attr POSITION = some (.Float32x3 ps) ∧
          triplesInBounds ps.length (smoothIndexList m ps)) := by
  by_cases ht : m.primitive_topology = .TriangleList
  · cases hA : m.attr POSITION with
    | none => simp [smooth_normals, ht, hA]
    | some v =>
      cases v with
      | Float32x3 ps =>
        cases hN : accumNormals ps (smoothIndexList m ps) [] with
        | error p =>
          have hb : ¬triplesInBounds ps.length (smoothIndexList m ps) := by
            rw [← accumNormals_ok_iff ps (smoothIndexList m ps) []]
            rintro ⟨r, hr⟩
            rw [hr] at hN
            exact absurd hN (by simp)
          simp [smooth_normals, ht, hA, hN, hb]
        | ok nm =>
          have hb : triplesInBounds ps.length (smoothIndexList m ps) := by
            rw [← accumNormals_ok_iff ps (smoothIndexList m ps) []]
            exact ⟨nm, hN⟩
          simp [smooth_normals, ht, hA, hN, hb]
      | Float32x2 w =>
        simp [smooth_normals, ht, hA, VertexAttributeValues.format]
  · simp [smooth_normals, ht]
